import Mathlib

/-
Verification of the exemplar-reservoir core
(`experimental/packages/opentelemetry-sdk-metrics-base/src/exemplar/ExemplarReservoir.ts`)
and of two client-side helpers of the gRPC instrumentation
(`experimental/packages/opentelemetry-instrumentation-grpc/src/grpc-js/clientUtils.ts`).

The TypeScript code is shallowly embedded: JS objects holding metric
attributes become association lists with unique keys, JS `number` values
become `Int`, `HrTime` pairs become `Nat × Nat`, nullable fields become
`Option`, and a JS `TypeError` thrown by a member access on `undefined`
is modelled by an operation returning `none`.
-/

/-- Scalar attribute value, as stored in an `Attributes` object. -/
inductive AttrVal
  | intVal (n : Int)
  | strVal (s : String)
  | boolVal (b : Bool)
deriving DecidableEq, Repr

/-- A JS attributes object: an association list keyed by strings.
JS objects never hold two entries with the same key; theorems that need
this carry a `Nodup` hypothesis on the key list. -/
abbrev Attributes := List (String × AttrVal)

/-- Reading `obj[k]` from an attributes object: the value at the first
entry with key `k`, or `none` when the key is absent. -/
def lookupAttr (attrs : Attributes) (k : String) : Option AttrVal :=
  (attrs.find? (fun e => decide (e.1 = k))).map Prod.snd

/-- The JS statement `delete obj[k]`: all entries with key `k` are removed
(in a JS object there is at most one). -/
def eraseKey (attrs : Attributes) (k : String) : Attributes :=
  attrs.filter (fun e => decide (e.1 ≠ k))

/-- One iteration of the loop in `StorageItem.getAndReset`:
`if (pointAttributes[key] === currentAttriubtes[key]) delete currentAttriubtes[key]`.
The pair `kv` is an entry of `pointAttributes`, so `kv.2` is the value the
source reads as `pointAttributes[key]`. -/
def filterStep (attrs : Attributes) (kv : String × AttrVal) : Attributes :=
  if lookupAttr attrs kv.1 = some kv.2 then eraseKey attrs kv.1 else attrs

/-- The whole `Object.keys(pointAttributes).forEach(...)` loop of
`StorageItem.getAndReset`: each key of `pointAttributes` is processed in
order against the (mutated) measurement attributes. -/
def filterAttributes (pointAttributes attrs : Attributes) : Attributes :=
  pointAttributes.foldl filterStep attrs

/-- An active span's identifiers, as exposed by the API's span context. -/
structure SpanContext where
  spanId : String
  traceId : String
deriving DecidableEq, Repr

/-- The opaque `Context` passed to `offerMeasurement`, reduced to the only
part the reservoir reads: whether an active span context is present. -/
abbrev TraceContext := Option SpanContext

/-- Modelled from the spec: `trace.getSpanContext(ctx)` of the external
`@opentelemetry/api` package returns the active span's context when the
context carries one and `undefined` otherwise. -/
def getSpanContext (ctx : TraceContext) : Option SpanContext := ctx

/-- One measurement offered to the reservoir: the argument tuple
`(value, timestamp, attributes, ctx)` of `offerMeasurement`. -/
structure Measurement where
  value : Int
  timestamp : Nat × Nat
  attributes : Attributes
  ctx : TraceContext
deriving DecidableEq, Repr

/-- The `Exemplar` record built by `StorageItem.getAndReset`. -/
structure Exemplar where
  filteredAttributes : Attributes
  value : Int
  timestamp : Nat × Nat
  spanId : Option String
  traceId : Option String
deriving DecidableEq, Repr

/-- One slot of the reservoir (`class StorageItem`): the field defaults are
the initializers of the class (`value = 0`, `attributes = null`,
`timestamp = [0, 0]`, `spanId`/`traceId` undefined). -/
structure StorageItem where
  value : Int := 0
  attributes : Option Attributes := none
  timestamp : Nat × Nat := (0, 0)
  spanId : Option String := none
  traceId : Option String := none
deriving DecidableEq, Repr

/-- The source's `StorageItem.offerMeasurement`: unconditionally overwrite
every field; the span/trace ids come from `trace.getSpanContext(ctx)` via
optional chaining. -/
def StorageItem.offerMeasurement (_s : StorageItem) (m : Measurement) : StorageItem :=
  { value := m.value,
    attributes := some m.attributes,
    timestamp := m.timestamp,
    spanId := (getSpanContext m.ctx).map SpanContext.spanId,
    traceId := (getSpanContext m.ctx).map SpanContext.traceId }

/-- The source's `StorageItem.getAndReset`: when the stored attributes are
non-null, build the exemplar from the filtered attributes and reset every
field to its initializer; otherwise return `null` and leave the slot as is.
The returned pair is (returned exemplar, slot state after the call). -/
def StorageItem.getAndReset (s : StorageItem) (pointAttributes : Attributes) :
    Option Exemplar × StorageItem :=
  match s.attributes with
  | some attrs =>
    (some { filteredAttributes := filterAttributes pointAttributes attrs,
            value := s.value,
            timestamp := s.timestamp,
            spanId := s.spanId,
            traceId := s.traceId },
     {})
  | none => (none, s)

/-- The exemplar that a collect produces for a slot last written by
measurement `m`, under point attributes `pa`: the composition of
`offerMeasurement` and `getAndReset` on the exemplar side. -/
def mkExemplar (m : Measurement) (pa : Attributes) : Exemplar :=
  { filteredAttributes := filterAttributes pa m.attributes,
    value := m.value,
    timestamp := m.timestamp,
    spanId := (getSpanContext m.ctx).map SpanContext.spanId,
    traceId := (getSpanContext m.ctx).map SpanContext.traceId }

/-- The reservoir storage built by `FixedSizeExemplarReservoirBase`'s
constructor: `size` fresh `StorageItem`s. -/
def emptyReservoir (n : Nat) : List StorageItem :=
  List.replicate n {}

/-- The source's `FixedSizeExemplarReservoirBase.offerMeasurement`, with the
index already computed by `reservoirIndexFor`. The guard in the source is
exactly `index !== -1`; for any other index outside `[0, N)` the member
access `this._reservoirStorage[index].offerMeasurement(...)` is a method
call on `undefined`, i.e. a thrown `TypeError`, modelled as `none`. -/
def reservoirOffer (storage : List StorageItem) (index : Int) (m : Measurement) :
    Option (List StorageItem) :=
  if index = -1 then some storage
  else if h : 0 ≤ index ∧ index.toNat < storage.length then
    some (storage.set index.toNat
      ((storage.get ⟨index.toNat, h.2⟩).offerMeasurement m))
  else none

/-- A sequence of offers applied to a reservoir, each with the index its
`reservoirIndexFor` returned; a thrown `TypeError` aborts the sequence. -/
def applyOffers (offers : List (Int × Measurement)) (storage : List StorageItem) :
    Option (List StorageItem) :=
  match offers with
  | [] => some storage
  | o :: rest => (reservoirOffer storage o.1 o.2).bind (applyOffers rest)

/-- The slot loop of `collectAndReset`: visit the slots in storage order,
call `getAndReset` on each, and push the non-null results in that order.
Returns (accumulated exemplars, slot states after the loop). -/
def collectSlots (pa : Attributes) : List StorageItem → List Exemplar × List StorageItem
  | [] => ([], [])
  | s :: rest =>
    let r := s.getAndReset pa
    let tail := collectSlots pa rest
    (match r.1 with
     | some e => e :: tail.1
     | none => tail.1,
     r.2 :: tail.2)

/-- The overridable `reset()` hook invoked at the end of `collectAndReset`;
the base-class default is a no-op. -/
def reservoirResetHook (storage : List StorageItem) : List StorageItem := storage

/-- The source's `FixedSizeExemplarReservoirBase.collectAndReset`. -/
def collectAndReset (pa : Attributes) (storage : List StorageItem) :
    List Exemplar × List StorageItem :=
  let r := collectSlots pa storage
  (r.1, reservoirResetHook r.2)

/-- The collect loop annotated with slot indexes (starting at `i`): the
pairs (slot index, exemplar produced by that slot). This is derived
bookkeeping used to state ordering and distinctness of the collect. -/
def collectPairs (pa : Attributes) (i : Nat) : List StorageItem → List (Nat × Exemplar)
  | [] => []
  | s :: rest =>
    match (s.getAndReset pa).1 with
    | some e => (i, e) :: collectPairs pa (i + 1) rest
    | none => collectPairs pa (i + 1) rest

/-- Indexes (starting at `i`) of the slots whose stored attributes are
non-null, i.e. the occupied slots. -/
def occupiedIndexesFrom (i : Nat) : List StorageItem → List Nat
  | [] => []
  | s :: rest =>
    if s.attributes.isSome then i :: occupiedIndexesFrom (i + 1) rest
    else occupiedIndexesFrom (i + 1) rest

/-
gRPC client-side helpers (`grpc-js/clientUtils.ts`).
-/

/-- A completion event emitted on a streaming client call: the payloads are
the fields the handlers in `makeGrpcClientRemoteCall` actually read. -/
inductive GrpcEvent
  | errorEvent (code : Int) (name message : String)
  | statusEvent (code : Int)
deriving DecidableEq, Repr

/-- One observable operation performed on the call's span by the streaming
completion handlers. -/
inductive SpanOp
  | statusSet
  | attributesSet
  | attributeSet
  | ended
deriving DecidableEq, Repr

/-- The two call-local guards of the streaming path of
`makeGrpcClientRemoteCall`: the `call[CALL_SPAN_ENDED]` property checked
and set by both handlers, and the `spanEnded` variable captured by
`endSpan`. Both start false when the call is created. -/
structure CallState where
  callSpanEnded : Bool := false
  spanEnded : Bool := false
deriving DecidableEq, Repr

/-- The `endSpan` closure: `if (!spanEnded) { span.end(); spanEnded = true; }`. -/
def endSpanGuarded (st : CallState) : CallState × List SpanOp :=
  if st.spanEnded then (st, [])
  else ({ st with spanEnded := true }, [SpanOp.ended])

/-- One invocation of the streaming completion handlers: both the `error`
and the `status` handler return immediately when `call[CALL_SPAN_ENDED]`
is set, otherwise set it, record status and attributes on the span, and
call `endSpan`. Returns the new guard state and the span operations
performed by this invocation. -/
def handleEvent (st : CallState) (e : GrpcEvent) : CallState × List SpanOp :=
  if st.callSpanEnded then (st, [])
  else
    let st1 : CallState := { st with callSpanEnded := true }
    let r := endSpanGuarded st1
    match e with
    | .errorEvent _ _ _ => (r.1, [SpanOp.statusSet, SpanOp.attributesSet] ++ r.2)
    | .statusEvent _ => (r.1, [SpanOp.statusSet, SpanOp.attributeSet] ++ r.2)

/-- A whole interleaving of completion events delivered to one call, with
the span operations of all handler invocations concatenated in order. -/
def processEvents (st : CallState) : List GrpcEvent → CallState × List SpanOp
  | [] => (st, [])
  | e :: rest =>
    let r := handleEvent st e
    let r2 := processEvents r.1 rest
    (r2.1, r.2 ++ r2.2)

/-- An argument of a patched client call, as far as `getMetadata` can
observe it: either it passes the Metadata-shape test (`internalRepr`
present and `getMap` a function) or it does not. The `id` keeps distinct
arguments distinguishable. -/
inductive JsArg
  | metaShaped (id : Nat)
  | nonMeta (id : Nat)
deriving DecidableEq, Repr

/-- The Metadata-shape test of the `findIndex` callback in `getMetadata`. -/
def isMetaShaped : JsArg → Bool
  | .metaShaped _ => true
  | .nonMeta _ => false

/-- The JS call `args.splice(i, 0, x)`: insert `x` at position `i`,
clamped to the array length (inserting past the end appends). -/
def spliceInsert (args : List JsArg) (i : Nat) (x : JsArg) : List JsArg :=
  args.take i ++ x :: args.drop i

/-- The source's `getMetadata`: find the first Metadata-shaped argument and
return it with `args` untouched; otherwise create a fresh `Metadata`
(the parameter `fresh` stands for the `new grpcClient.Metadata()` object),
splice it into `args` at index 1 for calls without a request stream and at
index 0 for calls with one, and return it. `args.find?` returns exactly
the element at the source's `findIndex` position. -/
def getMetadata (requestStream : Bool) (fresh : JsArg) (args : List JsArg) :
    JsArg × List JsArg :=
  match args.find? isMetaShaped with
  | some m => (m, args)
  | none =>
    let idx := if requestStream then 0 else 1
    (fresh, spliceInsert args idx fresh)

/-
Concrete inputs used by witnesses and counterexamples.
-/

/-- A measurement with value 0, timestamp [0, 0], an empty attributes
object and no active span context. -/
def mZero : Measurement :=
  { value := 0, timestamp := (0, 0), attributes := [], ctx := none }

/-- A concrete span context. -/
def scExample : SpanContext := { spanId := "0011aabb", traceId := "ff00ff00" }

/-- A measurement recorded while `scExample` was the active span. -/
def mWithCtx : Measurement :=
  { value := 7, timestamp := (1, 2), attributes := [("a", AttrVal.intVal 1)],
    ctx := some scExample }

/-
Helper lemmas about attribute lookup and the filtering loop.
-/

lemma lookupAttr_cons (k x : String) (v : AttrVal) (rest : Attributes) :
    lookupAttr ((k, v) :: rest) x = if k = x then some v else lookupAttr rest x := by
  by_cases h : k = x
  · simp [lookupAttr, List.find?_cons_of_pos, h]
  · rw [lookupAttr, List.find?_cons_of_neg _ (by simpa using h), if_neg h]
    rfl

lemma lookupAttr_eq_none (attrs : Attributes) (k : String)
    (h : k ∉ attrs.map Prod.fst) : lookupAttr attrs k = none := by
  rw [lookupAttr, List.find?_eq_none.mpr, Option.map_none']
  intro e he
  simp only [decide_eq_true_eq]
  intro hek
  exact h (hek ▸ List.mem_map_of_mem Prod.fst he)

lemma lookupAttr_eq_of_mem (attrs : Attributes) (h : (attrs.map Prod.fst).Nodup)
    (e : String × AttrVal) (he : e ∈ attrs) : lookupAttr attrs e.1 = some e.2 := by
  induction attrs with
  | nil => cases he
  | cons a t ih =>
    obtain ⟨k, v⟩ := a
    rw [List.map_cons, List.nodup_cons] at h
    rcases List.mem_cons.mp he with rfl | he2
    · simp [lookupAttr_cons]
    · have hk : k ≠ e.1 := by
        intro hk
        have hmem : e.1 ∈ t.map Prod.fst := List.mem_map_of_mem Prod.fst he2
        have h1 := h.1
        rw [hk] at h1
        exact h1 hmem
      rw [lookupAttr_cons, if_neg hk]
      exact ih h.2 he2

lemma eraseKey_keysNodup (attrs : Attributes) (k : String)
    (h : (attrs.map Prod.fst).Nodup) : ((eraseKey attrs k).map Prod.fst).Nodup :=
  h.sublist ((List.filter_sublist attrs).map Prod.fst)

/-- The imperative filtering loop of `getAndReset` computes, on JS-style
attribute objects (unique keys), exactly the declarative filter of the
spec: keep an entry iff its value differs from the point attributes' value
at the same key. -/
lemma filterAttributes_eq_filter (point : Attributes) :
    ∀ attrs : Attributes, (point.map Prod.fst).Nodup → (attrs.map Prod.fst).Nodup →
      filterAttributes point attrs
        = attrs.filter (fun e => decide (lookupAttr point e.1 ≠ some e.2)) := by
  induction point with
  | nil =>
    intro attrs _ _
    rw [filterAttributes, List.foldl_nil]
    rw [List.filter_eq_self.mpr]
    intro e _
    simp [lookupAttr]
  | cons kv rest ih =>
    intro attrs hp ha
    obtain ⟨k, v⟩ := kv
    rw [List.map_cons, List.nodup_cons] at hp
    have hkrest : k ∉ rest.map Prod.fst := hp.1
    have hcons : filterAttributes ((k, v) :: rest) attrs
        = filterAttributes rest (filterStep attrs (k, v)) := rfl
    by_cases hlk : lookupAttr attrs k = some v
    · have hstep : filterStep attrs (k, v) = eraseKey attrs k := by
        rw [filterStep, if_pos hlk]
      rw [hcons, hstep, ih _ hp.2 (eraseKey_keysNodup attrs k ha), eraseKey,
        List.filter_filter]
      apply List.filter_congr
      intro e he
      by_cases hek : e.1 = k
      · have h2 : lookupAttr attrs e.1 = some e.2 := lookupAttr_eq_of_mem attrs ha e he
        have hev : e.2 = v := by
          rw [hek] at h2
          rw [h2] at hlk
          exact Option.some.inj hlk
        simp [lookupAttr_cons, hek, hev]
      · have hne : k ≠ e.1 := fun hk => hek hk.symm
        simp [lookupAttr_cons, if_neg hne, hek]
    · have hstep : filterStep attrs (k, v) = attrs := by
        rw [filterStep, if_neg hlk]
      rw [hcons, hstep, ih _ hp.2 ha]
      apply List.filter_congr
      intro e he
      by_cases hek : e.1 = k
      · have h1 : lookupAttr rest k = none := lookupAttr_eq_none _ _ hkrest
        have h2 : lookupAttr attrs e.1 = some e.2 := lookupAttr_eq_of_mem attrs ha e he
        have h3 : v ≠ e.2 := by
          intro hev
          rw [hek] at h2
          rw [h2] at hlk
          exact hlk (by rw [hev])
        simp [lookupAttr_cons, hek, h1, h3]
      · have hne : k ≠ e.1 := fun hk => hek hk.symm
        simp [lookupAttr_cons, if_neg hne]

/-
Helper lemmas about slots and the collect loop.
-/

lemma getAndReset_some (s : StorageItem) (pa attrs : Attributes)
    (h : s.attributes = some attrs) :
    s.getAndReset pa
      = (some { filteredAttributes := filterAttributes pa attrs, value := s.value,
                timestamp := s.timestamp, spanId := s.spanId, traceId := s.traceId },
         {}) := by
  simp [StorageItem.getAndReset, h]

lemma getAndReset_none (s : StorageItem) (pa : Attributes)
    (h : s.attributes = none) : s.getAndReset pa = (none, s) := by
  simp [StorageItem.getAndReset, h]

lemma getAndReset_fst_isSome (s : StorageItem) (pa : Attributes) :
    ((s.getAndReset pa).1).isSome = s.attributes.isSome := by
  cases h : s.attributes
  · rw [getAndReset_none s pa h]
    rfl
  · rw [getAndReset_some s pa _ h]
    rfl

lemma offer_getAndReset (s : StorageItem) (m : Measurement) (pa : Attributes) :
    (s.offerMeasurement m).getAndReset pa = (some (mkExemplar m pa), {}) := by
  simp [StorageItem.offerMeasurement, StorageItem.getAndReset, mkExemplar]

lemma collectSlots_fst_eq_filterMap (pa : Attributes) (l : List StorageItem) :
    (collectSlots pa l).1 = l.filterMap (fun s => (s.getAndReset pa).1) := by
  induction l with
  | nil => rfl
  | cons s rest ih =>
    rw [collectSlots]
    cases h : (s.getAndReset pa).1 <;> simp [List.filterMap_cons, h, ih]

lemma collectSlots_snd_eq_map (pa : Attributes) (l : List StorageItem) :
    (collectSlots pa l).2 = l.map (fun s => (s.getAndReset pa).2) := by
  induction l with
  | nil => rfl
  | cons s rest ih => rw [collectSlots, List.map_cons, ← ih]

lemma collectSlots_fst_eq_pairs (pa : Attributes) :
    ∀ (l : List StorageItem) (i : Nat),
      (collectSlots pa l).1 = (collectPairs pa i l).map Prod.snd := by
  intro l
  induction l with
  | nil => intro i; rfl
  | cons s rest ih =>
    intro i
    rw [collectSlots, collectPairs]
    cases h : (s.getAndReset pa).1 <;> simp [h, ih (i + 1)]

lemma collectPairs_fst_eq_occupied (pa : Attributes) :
    ∀ (l : List StorageItem) (i : Nat),
      (collectPairs pa i l).map Prod.fst = occupiedIndexesFrom i l := by
  intro l
  induction l with
  | nil => intro i; rfl
  | cons s rest ih =>
    intro i
    rw [collectPairs, occupiedIndexesFrom]
    cases hA : s.attributes with
    | none => rw [getAndReset_none s pa hA]; simp [hA, ih (i + 1)]
    | some attrs => rw [getAndReset_some s pa _ hA]; simp [hA, ih (i + 1)]

lemma occupiedIndexesFrom_ge :
    ∀ (l : List StorageItem) (i j : Nat), j ∈ occupiedIndexesFrom i l → i ≤ j := by
  intro l
  induction l with
  | nil => intro i j h; cases h
  | cons s rest ih =>
    intro i j h
    rw [occupiedIndexesFrom] at h
    by_cases hocc : s.attributes.isSome
    · rw [if_pos hocc] at h
      rcases List.mem_cons.mp h with rfl | h2
      · exact Nat.le_refl j
      · exact Nat.le_of_succ_le (ih (i + 1) j h2)
    · rw [if_neg hocc] at h
      exact Nat.le_of_succ_le (ih (i + 1) j h)

lemma occupiedIndexesFrom_sorted :
    ∀ (l : List StorageItem) (i : Nat),
      List.Sorted (· < ·) (occupiedIndexesFrom i l) := by
  intro l
  induction l with
  | nil => intro i; exact List.sorted_nil
  | cons s rest ih =>
    intro i
    rw [occupiedIndexesFrom]
    by_cases hocc : s.attributes.isSome
    · rw [if_pos hocc]
      refine List.sorted_cons.mpr ⟨?_, ih (i + 1)⟩
      intro j hj
      exact Nat.lt_of_succ_le (occupiedIndexesFrom_ge rest (i + 1) j hj)
    · rw [if_neg hocc]
      exact ih (i + 1)

lemma collectPairs_length_le (pa : Attributes) :
    ∀ (l : List StorageItem) (i : Nat),
      (collectPairs pa i l).length ≤ l.length := by
  intro l
  induction l with
  | nil => intro i; exact Nat.le_refl 0
  | cons s rest ih =>
    intro i
    rw [collectPairs]
    cases h : (s.getAndReset pa).1
    · exact Nat.le_succ_of_le (ih (i + 1))
    · simpa using Nat.succ_le_succ (ih (i + 1))

lemma collectPairs_mem (pa : Attributes) :
    ∀ (l : List StorageItem) (i j : Nat) (s : StorageItem) (e : Exemplar),
      l.get? j = some s → (s.getAndReset pa).1 = some e →
      (i + j, e) ∈ collectPairs pa i l := by
  intro l
  induction l with
  | nil => intro i j s e hget _; cases hget
  | cons a rest ih =>
    intro i j s e hget he
    cases j with
    | zero =>
      have hs : a = s := by simpa using hget
      subst hs
      rw [collectPairs, he]
      exact List.mem_cons_self _ _
    | succ j2 =>
      have hget2 : rest.get? j2 = some s := by simpa using hget
      have hmem := ih (i + 1) j2 s e hget2 he
      have harith : i + 1 + j2 = i + (j2 + 1) := by omega
      rw [harith] at hmem
      rw [collectPairs]
      cases h : (a.getAndReset pa).1
      · exact hmem
      · exact List.mem_cons_of_mem _ hmem

/-
Well-formedness of reachable slot states: a slot whose attributes are null
is a freshly reset slot. Every state reachable from a fresh reservoir by
offers and collects satisfies this.
-/

/-- A slot state is well formed when null attributes imply that every other
field still holds its initializer. -/
def SlotWF (s : StorageItem) : Prop := s.attributes = none → s = {}

lemma slotWF_default : SlotWF {} := fun _ => rfl

lemma slotWF_offer (s : StorageItem) (m : Measurement) :
    SlotWF (s.offerMeasurement m) := by
  intro h
  simp [StorageItem.offerMeasurement] at h

lemma wf_emptyReservoir (n : Nat) : ∀ s ∈ emptyReservoir n, SlotWF s := by
  intro s hs
  rw [emptyReservoir] at hs
  rw [List.eq_of_mem_replicate hs]
  exact slotWF_default

lemma wf_reservoirOffer (storage st2 : List StorageItem) (index : Int) (m : Measurement)
    (h : reservoirOffer storage index m = some st2)
    (hwf : ∀ s ∈ storage, SlotWF s) : ∀ s ∈ st2, SlotWF s := by
  rw [reservoirOffer] at h
  by_cases hneg : index = -1
  · rw [if_pos hneg] at h
    cases h
    exact hwf
  · rw [if_neg hneg] at h
    by_cases hi : 0 ≤ index ∧ index.toNat < storage.length
    · rw [dif_pos hi] at h
      cases h
      intro s hs
      rcases List.mem_or_eq_of_mem_set hs with hmem | rfl
      · exact hwf s hmem
      · exact slotWF_offer _ m
    · rw [dif_neg hi] at h
      cases h

lemma wf_applyOffers :
    ∀ (offers : List (Int × Measurement)) (storage st2 : List StorageItem),
      applyOffers offers storage = some st2 → (∀ s ∈ storage, SlotWF s) →
      ∀ s ∈ st2, SlotWF s := by
  intro offers
  induction offers with
  | nil =>
    intro storage st2 h hwf
    cases h
    exact hwf
  | cons o rest ih =>
    intro storage st2 h hwf
    rw [applyOffers] at h
    cases hstep : reservoirOffer storage o.1 o.2 with
    | none => rw [hstep] at h; cases h
    | some mid =>
      rw [hstep] at h
      exact ih mid st2 h (wf_reservoirOffer storage mid o.1 o.2 hstep hwf)

lemma getAndReset_snd_of_wf (s : StorageItem) (pa : Attributes) (h : SlotWF s) :
    (s.getAndReset pa).2 = {} := by
  cases hA : s.attributes
  · rw [getAndReset_none s pa hA]
    exact h hA
  · rw [getAndReset_some s pa _ hA]

lemma collectSlots_fst_of_default (pa : Attributes) :
    ∀ l : List StorageItem, (∀ s ∈ l, s = ({} : StorageItem)) →
      (collectSlots pa l).1 = [] := by
  intro l
  induction l with
  | nil => intro _; rfl
  | cons s rest ih =>
    intro h
    have hs : s = ({} : StorageItem) := h s (List.mem_cons_self _ _)
    have hrest := ih (fun x hx => h x (List.mem_cons_of_mem _ hx))
    rw [collectSlots]
    have hA : s.attributes = none := by rw [hs]
    rw [getAndReset_none s pa hA]
    simpa using hrest

/-
Claim theorems.
-/

/-- C1, counterexample: the claim says every index outside `[0, N)` —
not only `-1` — makes `offerMeasurement` return normally with the state
unchanged. On a reservoir of capacity 1, the out-of-range index 2 instead
makes the call fault (method call on an undefined slot), so the call does
not return normally with the state unchanged. -/
theorem C1_counterexample :
    ¬ ((0 : Int) ≤ 2 ∧ (2 : Int).toNat < (emptyReservoir 1).length) ∧
    (2 : Int) ≠ -1 ∧
    reservoirOffer (emptyReservoir 1) 2 mZero = none ∧
    reservoirOffer (emptyReservoir 1) 2 mZero ≠ some (emptyReservoir 1) := by
  decide

/-- C1, amended: for an index outside `[0, N)`, `offerMeasurement` leaves
every slot untouched, but only the sentinel `-1` returns normally (a
silent drop); any other out-of-range index raises a `TypeError` (the
slot access yields `undefined`), modelled as `none`. -/
theorem C1_amended (storage : List StorageItem) (index : Int) (m : Measurement)
    (h : ¬ (0 ≤ index ∧ index.toNat < storage.length)) :
    reservoirOffer storage index m = if index = -1 then some storage else none := by
  rw [reservoirOffer]
  by_cases hneg : index = -1
  · rw [if_pos hneg, if_pos hneg]
  · rw [if_neg hneg, if_neg hneg, dif_neg h]

/-- Witness for C1_amended at capacity 1 and the sentinel index `-1`. -/
theorem C1_witness :
    reservoirOffer (emptyReservoir 1) (-1) mZero = some (emptyReservoir 1) := by
  have h := C1_amended (emptyReservoir 1) (-1) mZero (by decide)
  simpa using h

/-- C2: on an occupied slot, `getAndReset` returns an exemplar whose
`filteredAttributes` is the stored attributes with exactly those entries
removed whose value equals the point attributes' value at the same key
(exact scalar equality). The `Nodup` hypotheses state that both JS
attribute objects have unique keys, which JS objects guarantee. -/
theorem C2_filteredAttributes (s : StorageItem) (attrs pointAttributes : Attributes)
    (hs : s.attributes = some attrs)
    (hp : (pointAttributes.map Prod.fst).Nodup)
    (ha : (attrs.map Prod.fst).Nodup) :
    ((s.getAndReset pointAttributes).1).map Exemplar.filteredAttributes
      = some (attrs.filter
          (fun e => decide (lookupAttr pointAttributes e.1 ≠ some e.2))) := by
  rw [getAndReset_some s pointAttributes attrs hs]
  simp [filterAttributes_eq_filter pointAttributes attrs hp ha]

/-- Witness for C2 at the spec's concrete example: point attributes
`{a:1, b:2}` against measurement attributes `{a:1, b:2, c:3}` yield
`filteredAttributes = {c:3}`. -/
theorem C2_witness :
    ((({ value := 5,
         attributes := some [("a", AttrVal.intVal 1), ("b", AttrVal.intVal 2),
                             ("c", AttrVal.intVal 3)],
         timestamp := (1, 0) } : StorageItem).getAndReset
        [("a", AttrVal.intVal 1), ("b", AttrVal.intVal 2)]).1).map
        Exemplar.filteredAttributes
      = some [("c", AttrVal.intVal 3)] := by
  have h := C2_filteredAttributes
    { value := 5,
      attributes := some [("a", AttrVal.intVal 1), ("b", AttrVal.intVal 2),
                          ("c", AttrVal.intVal 3)],
      timestamp := (1, 0) }
    [("a", AttrVal.intVal 1), ("b", AttrVal.intVal 2), ("c", AttrVal.intVal 3)]
    [("a", AttrVal.intVal 1), ("b", AttrVal.intVal 2)]
    rfl (by decide) (by decide)
  rw [h]
  decide

/-- C3: `collectAndReset` returns at most N exemplars, exactly the
exemplars of the occupied slots (one each), associated with pairwise
distinct slot indexes listed in strictly ascending order. -/
theorem C3_collect_shape (pa : Attributes) (storage : List StorageItem) :
    (collectAndReset pa storage).1.length ≤ storage.length ∧
    (collectAndReset pa storage).1 = (collectPairs pa 0 storage).map Prod.snd ∧
    (collectPairs pa 0 storage).map Prod.fst = occupiedIndexesFrom 0 storage ∧
    List.Sorted (· < ·) ((collectPairs pa 0 storage).map Prod.fst) := by
  have h2 : (collectAndReset pa storage).1 = (collectPairs pa 0 storage).map Prod.snd :=
    collectSlots_fst_eq_pairs pa storage 0
  refine ⟨?_, h2, collectPairs_fst_eq_occupied pa storage 0, ?_⟩
  · rw [h2, List.length_map]
    exact collectPairs_length_le pa storage 0
  · rw [collectPairs_fst_eq_occupied pa storage 0]
    exact occupiedIndexesFrom_sorted storage 0

/-- C4: on any reservoir state reached from a fresh reservoir by a
sequence of offers, `collectAndReset` leaves every slot exactly in its
freshly-constructed state (value 0, attributes null, timestamp `[0, 0]`,
span/trace ids absent), so an immediately following `collectAndReset`
returns the empty sequence. -/
theorem C4_collect_resets (n : Nat) (offers : List (Int × Measurement))
    (pa pa2 : Attributes) (storage : List StorageItem)
    (h : applyOffers offers (emptyReservoir n) = some storage) :
    (∀ s ∈ (collectAndReset pa storage).2, s = ({} : StorageItem)) ∧
    (collectAndReset pa2 (collectAndReset pa storage).2).1 = [] := by
  have hwf : ∀ s ∈ storage, SlotWF s :=
    wf_applyOffers offers (emptyReservoir n) storage h (wf_emptyReservoir n)
  have hdef : ∀ s ∈ (collectAndReset pa storage).2, s = ({} : StorageItem) := by
    intro s hs
    have hsnd : (collectAndReset pa storage).2
        = storage.map (fun x => (x.getAndReset pa).2) :=
      collectSlots_snd_eq_map pa storage
    rw [hsnd] at hs
    rcases List.mem_map.mp hs with ⟨x, hx, rfl⟩
    exact getAndReset_snd_of_wf x pa (hwf x hx)
  exact ⟨hdef, collectSlots_fst_of_default pa2 _ hdef⟩

/-- Witness for C4: one offer into a capacity-1 reservoir, then a collect;
all slots are back to the constructed state and a second collect is empty. -/
theorem C4_witness :
    (∀ s ∈ (collectAndReset [] [({} : StorageItem).offerMeasurement mZero]).2,
        s = ({} : StorageItem)) ∧
    (collectAndReset []
        (collectAndReset [] [({} : StorageItem).offerMeasurement mZero]).2).1 = [] :=
  C4_collect_resets 1 [((0 : Int), mZero)] [] []
    [({} : StorageItem).offerMeasurement mZero] (by decide)

/-- C5: a second offer routed to the same in-range slot index before a
collect makes the composite state identical to one where only the second
offer happened (unconditional overwrite, no merge, no error), and the
collect then yields, for that slot index, exactly the exemplar built from
the second measurement. -/
theorem C5_overwrite (storage : List StorageItem) (i : Nat) (m1 m2 : Measurement)
    (pa : Attributes) (h : i < storage.length) :
    ((reservoirOffer storage (i : Int) m1).bind
        (fun st => reservoirOffer st (i : Int) m2))
      = reservoirOffer storage (i : Int) m2 ∧
    ∀ st2, reservoirOffer storage (i : Int) m2 = some st2 →
      (i, mkExemplar m2 pa) ∈ collectPairs pa 0 st2 := by
  have hno : ¬ ((i : Int) = -1) := by omega
  have htn : ((i : Int)).toNat = i := Int.toNat_natCast i
  have hcond : 0 ≤ (i : Int) ∧ ((i : Int)).toNat < storage.length := by
    constructor
    · exact Int.natCast_nonneg i
    · rw [htn]; exact h
  have hoff : ∀ (st : List StorageItem) (hlen : ((i : Int)).toNat < st.length) (m : Measurement),
      reservoirOffer st (i : Int) m
        = some (st.set ((i : Int)).toNat
            ((st.get ⟨((i : Int)).toNat, hlen⟩).offerMeasurement m)) := by
    intro st hlen m
    rw [reservoirOffer, if_neg hno, dif_pos ⟨Int.natCast_nonneg i, hlen⟩]
  constructor
  · rw [hoff storage hcond.2 m1, Option.some_bind,
      hoff _ (by simpa using hcond.2) m2, hoff storage hcond.2 m2]
    rw [List.set_set]
    have hget : ((storage.set ((i : Int)).toNat
          ((storage.get ⟨((i : Int)).toNat, hcond.2⟩).offerMeasurement m1)).get
            ⟨((i : Int)).toNat, by simpa using hcond.2⟩)
        = (storage.get ⟨((i : Int)).toNat, hcond.2⟩).offerMeasurement m1 :=
      List.get_set_eq _
    rw [hget]
    rfl
  · intro st2 hst2
    rw [hoff storage hcond.2 m2] at hst2
    have hst2eq := Option.some.inj hst2
    have hget? : st2.get? ((i : Int)).toNat = some
        ((storage.get ⟨((i : Int)).toNat, hcond.2⟩).offerMeasurement m2) := by
      rw [← hst2eq]
      exact List.get?_set_eq_of_lt _ hcond.2
    have hmem := collectPairs_mem pa st2 0 ((i : Int)).toNat
      ((storage.get ⟨((i : Int)).toNat, hcond.2⟩).offerMeasurement m2)
      (mkExemplar m2 pa) hget?
      (by rw [offer_getAndReset])
    simpa [Int.toNat_natCast] using hmem

/-- Witness for C5: overwrite at slot 0 of a capacity-1 reservoir. -/
theorem C5_witness :
    ((reservoirOffer (emptyReservoir 1) ((0 : Nat) : Int) mZero).bind
        (fun st => reservoirOffer st ((0 : Nat) : Int) mWithCtx))
      = reservoirOffer (emptyReservoir 1) ((0 : Nat) : Int) mWithCtx ∧
    (0, mkExemplar mWithCtx []) ∈
      collectPairs [] 0 [({} : StorageItem).offerMeasurement mWithCtx] := by
  have h := C5_overwrite (emptyReservoir 1) 0 mZero mWithCtx [] (by decide)
  exact ⟨h.1, h.2 [({} : StorageItem).offerMeasurement mWithCtx] (by decide)⟩

/-- C6: a zero-capacity reservoir is valid; under any sequence of offers
whose selection indexes respect the strategy contract (an index is either
in `[0, N)` or the drop sentinel `-1`, which for `N = 0` forces `-1`),
every offer is a no-op that leaves the state unchanged and raises no
fault, and `collectAndReset` always returns the empty sequence. -/
theorem C6_zero_capacity (offers : List (Int × Measurement)) (pa : Attributes)
    (hconf : ∀ p ∈ offers, p.1 = -1 ∨ (0 ≤ p.1 ∧ p.1 < 0)) :
    applyOffers offers (emptyReservoir 0) = some (emptyReservoir 0) ∧
    (collectAndReset pa (emptyReservoir 0)).1 = [] := by
  have hall : ∀ l : List (Int × Measurement),
      (∀ p ∈ l, p.1 = -1 ∨ (0 ≤ p.1 ∧ p.1 < 0)) →
      applyOffers l (emptyReservoir 0) = some (emptyReservoir 0) := by
    intro l
    induction l with
    | nil => intro _; rfl
    | cons o rest ih =>
      intro hc
      have ho := hc o (List.mem_cons_self _ _)
      have ho1 : o.1 = -1 := by
        rcases ho with h1 | h1
        · exact h1
        · omega
      have hr : reservoirOffer (emptyReservoir 0) o.1 o.2 = some (emptyReservoir 0) := by
        rw [ho1, reservoirOffer, if_pos rfl]
      rw [applyOffers, hr]
      exact ih (fun p hp => hc p (List.mem_cons_of_mem _ hp))
  exact ⟨hall offers hconf, rfl⟩

/-- Witness for C6: one sentinel-indexed offer on a capacity-0 reservoir. -/
theorem C6_witness :
    applyOffers [((-1 : Int), mZero)] (emptyReservoir 0) = some (emptyReservoir 0) ∧
    (collectAndReset [] (emptyReservoir 0)).1 = [] :=
  C6_zero_capacity [((-1 : Int), mZero)] [] (by decide)

/-- C7: an offer whose context carries an active span produces (at the
next collect) an exemplar holding that span's ids; an offer with no
active span still succeeds and produces an exemplar with both ids
absent. -/
theorem C7_trace_linkage (s : StorageItem) (m : Measurement) (pa : Attributes) :
    (∀ sc : SpanContext, m.ctx = some sc →
        ∃ e : Exemplar, ((s.offerMeasurement m).getAndReset pa).1 = some e ∧
          e.spanId = some sc.spanId ∧ e.traceId = some sc.traceId) ∧
    (m.ctx = none →
        ∃ e : Exemplar, ((s.offerMeasurement m).getAndReset pa).1 = some e ∧
          e.spanId = none ∧ e.traceId = none) := by
  constructor
  · intro sc hsc
    refine ⟨mkExemplar m pa, ?_, ?_, ?_⟩
    · rw [offer_getAndReset]
    · simp [mkExemplar, getSpanContext, hsc]
    · simp [mkExemplar, getSpanContext, hsc]
  · intro hn
    refine ⟨mkExemplar m pa, ?_, ?_, ?_⟩
    · rw [offer_getAndReset]
    · simp [mkExemplar, getSpanContext, hn]
    · simp [mkExemplar, getSpanContext, hn]

/-- Witness for C7: one offer with an active span context and one without. -/
theorem C7_witness :
    (∃ e : Exemplar,
        ((({} : StorageItem).offerMeasurement mWithCtx).getAndReset []).1 = some e ∧
        e.spanId = some scExample.spanId ∧ e.traceId = some scExample.traceId) ∧
    (∃ e : Exemplar,
        ((({} : StorageItem).offerMeasurement mZero).getAndReset []).1 = some e ∧
        e.spanId = none ∧ e.traceId = none) :=
  ⟨(C7_trace_linkage {} mWithCtx []).1 scExample rfl,
   (C7_trace_linkage {} mZero []).2 rfl⟩

/-- C9: occupancy is exactly non-null stored attributes: every offer,
including one whose fields all equal the slot initializers except for the
(empty but non-null) attributes object, occupies the slot; the next
collect returns an exemplar for it, while a null-attributes slot returns
nothing. -/
theorem C9_occupancy (s : StorageItem) (m : Measurement) (pa : Attributes) :
    ((s.offerMeasurement m).attributes).isSome = true ∧
    ((s.offerMeasurement m).getAndReset pa).1.isSome = true ∧
    (∀ t : StorageItem, t.attributes = none → (t.getAndReset pa).1 = none) ∧
    (∀ pre post : List StorageItem,
        mkExemplar m pa ∈ (collectAndReset pa (pre ++ s.offerMeasurement m :: post)).1) := by
  refine ⟨rfl, ?_, ?_, ?_⟩
  · rw [offer_getAndReset]
    rfl
  · intro t ht
    rw [getAndReset_none t pa ht]
  · intro pre post
    have hc : (collectAndReset pa (pre ++ s.offerMeasurement m :: post)).1
        = (pre ++ s.offerMeasurement m :: post).filterMap
            (fun x => (x.getAndReset pa).1) :=
      collectSlots_fst_eq_filterMap pa _
    rw [hc]
    apply List.mem_filterMap.mpr
    refine ⟨s.offerMeasurement m, ?_, ?_⟩
    · exact List.mem_append_right _ (List.mem_cons_self _ _)
    · rw [offer_getAndReset]

/-- Witness for C9: the zero-valued measurement with an empty attributes
object occupies a fresh slot and is collected. -/
theorem C9_witness :
    ((({} : StorageItem).offerMeasurement mZero).attributes).isSome = true ∧
    ((({} : StorageItem).offerMeasurement mZero).getAndReset []).1.isSome = true ∧
    (({} : StorageItem).getAndReset []).1 = none ∧
    mkExemplar mZero [] ∈
      (collectAndReset [] ([] ++ ({} : StorageItem).offerMeasurement mZero :: [])).1 := by
  have h := C9_occupancy {} mZero []
  exact ⟨h.1, h.2.1, h.2.2.1 {} rfl, h.2.2.2 [] []⟩

/-
Helper lemmas for the streaming completion handlers and getMetadata.
-/

lemma handleEvent_stopped (st : CallState) (e : GrpcEvent)
    (h : st.callSpanEnded = true) : handleEvent st e = (st, []) := by
  cases e <;> simp [handleEvent, h]

lemma processEvents_stopped (st : CallState) (h : st.callSpanEnded = true) :
    ∀ evs : List GrpcEvent, processEvents st evs = (st, []) := by
  intro evs
  induction evs with
  | nil => rfl
  | cons e rest ih =>
    rw [processEvents]
    simp [handleEvent_stopped st e h, ih]

lemma handleEvent_fresh (e : GrpcEvent) :
    (handleEvent {} e).1 = { callSpanEnded := true, spanEnded := true } ∧
    (handleEvent {} e).2.count SpanOp.ended = 1 := by
  cases e <;> simp [handleEvent, endSpanGuarded]

lemma find?_first_of_falses (p : JsArg → Bool) :
    ∀ (pre : List JsArg) (m : JsArg) (post : List JsArg),
      (∀ a ∈ pre, p a = false) → p m = true →
      (pre ++ m :: post).find? p = some m := by
  intro pre
  induction pre with
  | nil =>
    intro m post _ hm
    simpa using List.find?_cons_of_pos post hm
  | cons a t ih =>
    intro m post hpre hm
    rw [List.cons_append,
      List.find?_cons_of_neg _ (by simp [hpre a (List.mem_cons_self _ _)])]
    exact ih m post (fun x hx => hpre x (List.mem_cons_of_mem _ hx)) hm

lemma spliceInsert_eq_insertIdx :
    ∀ (args : List JsArg) (i : Nat) (x : JsArg),
      spliceInsert args i x = args.insertIdx (min i args.length) x := by
  intro args
  induction args with
  | nil =>
    intro i x
    simp [spliceInsert]
  | cons a t ih =>
    intro i x
    cases i with
    | zero => simp [spliceInsert]
    | succ j =>
      have hmin : min (j + 1) (a :: t).length = (min j t.length) + 1 := by
        simp [List.length_cons]
        omega
      rw [hmin]
      show a :: (t.take j ++ x :: t.drop j) = (a :: t).insertIdx ((min j t.length) + 1) x
      rw [show (a :: t).insertIdx ((min j t.length) + 1) x
            = a :: t.insertIdx (min j t.length) x from rfl]
      rw [← ih j x]
      rfl

/-- C8: on a streaming client call, for every nonempty interleaving of
`error` and `status` completion events, `span.end()` runs exactly once;
the first event ends the span and sets the call-local guard, and every
later event performs no operation on the span at all. -/
theorem C8_span_end_once (events : List GrpcEvent) (h : events ≠ []) :
    ((processEvents {} events).2.count SpanOp.ended = 1) ∧
    (processEvents {} events).1 = { callSpanEnded := true, spanEnded := true } ∧
    ∀ e rest, events = e :: rest →
      (processEvents {} events).2 = (handleEvent {} e).2 ∧
      (processEvents (handleEvent {} e).1 rest).2 = [] := by
  cases events with
  | nil => exact absurd rfl h
  | cons e rest =>
    have h1 := handleEvent_fresh e
    have hstop : (handleEvent {} e).1.callSpanEnded = true := by rw [h1.1]
    have hrest := processEvents_stopped (handleEvent {} e).1 hstop rest
    refine ⟨?_, ?_, ?_⟩
    · rw [processEvents]
      simp [hrest, h1.2]
    · rw [processEvents]
      simp [hrest, h1.1,
        processEvents_stopped { callSpanEnded := true, spanEnded := true } rfl rest]
    · intro e2 rest2 heq
      cases heq
      refine ⟨?_, ?_⟩
      · rw [processEvents]
        simp [hrest]
      · rw [hrest]

/-- Witness for C8: a `status` event racing a late `error` event; the span
is ended once and the second handler touches nothing. -/
theorem C8_witness :
    ((processEvents {}
        [GrpcEvent.statusEvent 0, GrpcEvent.errorEvent 7 "E" "boom"]).2.count
          SpanOp.ended = 1) ∧
    (processEvents (handleEvent {} (GrpcEvent.statusEvent 0)).1
        [GrpcEvent.errorEvent 7 "E" "boom"]).2 = [] := by
  have h := C8_span_end_once
    [GrpcEvent.statusEvent 0, GrpcEvent.errorEvent 7 "E" "boom"] (by decide)
  exact ⟨h.1, (h.2.2 (GrpcEvent.statusEvent 0)
    [GrpcEvent.errorEvent 7 "E" "boom"] rfl).2⟩

/-- C10, counterexample: with no Metadata-shaped argument and no request
stream, the claim places the fresh Metadata at index 1; on an empty
argument list the source's `splice(1, 0, metadata)` instead puts it at
index 0 (the end), so nothing sits at index 1. -/
theorem C10_counterexample :
    (getMetadata false (JsArg.metaShaped 0) []).2 = [JsArg.metaShaped 0] ∧
    ((getMetadata false (JsArg.metaShaped 0) []).2).get? 1 ≠ some (JsArg.metaShaped 0) := by
  decide

/-- C10, amended: `getMetadata` returns the first Metadata-shaped argument
and leaves `args` unchanged when one exists; otherwise it returns the
fresh Metadata after inserting it at index `min 1 args.length` for calls
without a request stream and at index 0 for calls with one, growing
`args` by exactly one element. -/
theorem C10_getMetadata (requestStream : Bool) (fresh : JsArg) (args : List JsArg) :
    (∀ pre m post, args = pre ++ m :: post → (∀ a ∈ pre, isMetaShaped a = false) →
        isMetaShaped m = true → getMetadata requestStream fresh args = (m, args)) ∧
    ((∀ a ∈ args, isMetaShaped a = false) →
        (getMetadata requestStream fresh args).1 = fresh ∧
        (getMetadata requestStream fresh args).2
          = args.insertIdx (min (if requestStream then 0 else 1) args.length) fresh ∧
        (getMetadata requestStream fresh args).2.length = args.length + 1) := by
  constructor
  · intro pre m post hsplit hpre hm
    subst hsplit
    rw [getMetadata, find?_first_of_falses isMetaShaped pre m post hpre hm]
  · intro hnone
    have hfind : args.find? isMetaShaped = none :=
      List.find?_eq_none.mpr (fun x hx => by simp [hnone x hx])
    rw [getMetadata, hfind]
    refine ⟨rfl, ?_, ?_⟩
    · exact spliceInsert_eq_insertIdx args (if requestStream then 0 else 1) fresh
    · show (spliceInsert args (if requestStream then 0 else 1) fresh).length
        = args.length + 1
      rw [spliceInsert, List.length_append, List.length_cons, List.length_take,
        List.length_drop]
      omega

/-- Witness for C10: a found Metadata argument is returned with args
untouched; with only non-Metadata arguments the fresh one is inserted. -/
theorem C10_witness :
    getMetadata false (JsArg.metaShaped 9) [JsArg.nonMeta 0, JsArg.metaShaped 1]
      = (JsArg.metaShaped 1, [JsArg.nonMeta 0, JsArg.metaShaped 1]) ∧
    (getMetadata true (JsArg.metaShaped 9) [JsArg.nonMeta 0]).2
      = [JsArg.nonMeta 0].insertIdx (min 0 [JsArg.nonMeta 0].length) (JsArg.metaShaped 9) := by
  have h1 := (C10_getMetadata false (JsArg.metaShaped 9)
      [JsArg.nonMeta 0, JsArg.metaShaped 1]).1
    [JsArg.nonMeta 0] (JsArg.metaShaped 1) [] rfl (by decide) rfl
  have h2 := (C10_getMetadata true (JsArg.metaShaped 9) [JsArg.nonMeta 0]).2 (by decide)
  exact ⟨h1, h2.2.1⟩
